import Mathlib

/-!
Shallow embedding of the streaming chat decoder in
`src/frontend/lionrock-chatbot/src/components/Chatbot.tsx` (the `sendMessage`
function and its helpers).

Conventions of the embedding:
* Network chunks and protocol lines are modelled as `List Char` (the code
  decodes bytes to a JS string with `TextDecoder` in streaming mode, so the
  character stream is the faithful abstraction level); message texts and
  frame payloads are Lean `String`s.
* `JSON.parse` is a JavaScript builtin, not repository code.  It is modelled
  as an oracle `parse : String → Option JsonObj` passed to every function
  that calls it: `some o` models a successful parse whose relevant fields
  (`error`, `full_text`, `content`) are read off the resulting value
  (a parse producing a non-object value yields `some` with all fields
  `none`, since field access on it gives `undefined`); `none` models a
  parse failure, which the code catches (the payload `"null"`, whose field
  access throws into the same catch block, is also covered by `none`).
* React's `setMessages`/`setLoading` state updates are modelled as explicit
  record updates on a `Session` value; `await fetchUsageInfo(userId)` is
  modelled by incrementing the counter `usageFetches`.
-/

/-- Sender tag of a chat message (`"user" | "bot" | "system"`). -/
inductive Sender where
  | user
  | bot
  | system
deriving DecidableEq, Repr

/-- One chat message, mirroring `type Message` in Chatbot.tsx. -/
structure Message where
  text : String
  sender : Sender
deriving DecidableEq, Repr

/-- The fields of a parsed JSON frame payload that the code reads
(`data.error`, `data.full_text`, `data.content`).  A field that is absent
or not a string is `none`; JS truthiness of a present field is captured by
`truthy` below. -/
structure JsonObj where
  error : Option String
  full_text : Option String
  content : Option String
deriving DecidableEq, Repr

/-- JS truthiness of an optional string field: `undefined` and `""` are
falsy, every other string is truthy. -/
def truthy : Option String → Bool
  | some s => !s.isEmpty
  | none => false

/-- Boolean prefix test on character lists (JS `String.startsWith`). -/
def isPrefixB : List Char → List Char → Bool
  | [], _ => true
  | _ :: _, [] => false
  | a :: as, b :: bs => a = b && isPrefixB as bs

/-- Substring containment (JS `String.includes`). -/
def containsSub (needle : List Char) : List Char → Bool
  | [] => needle.isEmpty
  | c :: rest => isPrefixB needle (c :: rest) || containsSub needle rest

/-- The marker test of Chatbot.tsx lines 402-406 and 425-427: does the text
contain one of the three fixed error-marker substrings? -/
def hasMarker (s : String) : Bool :=
  containsSub ("not a subscribed member".toList) s.toList ||
  containsSub ("Daily limit reached".toList) s.toList ||
  containsSub ("Please subscribe".toList) s.toList

/-- The condition of line 402: `data.content && (data.content.includes(...))`. -/
def contentMarker (o : JsonObj) : Bool :=
  truthy o.content && hasMarker (o.content.getD "")

/-- Whitespace set of JS `String.trim` (restricted to the characters that
can actually occur here). -/
def isJsSpace (c : Char) : Bool :=
  c = ' ' || c = '\t' || c = '\n' || c = '\r' ||
  c = '\x0b' || c = '\x0c' || c = ' ' || c = '﻿'

/-- JS `String.trim` on character lists. -/
def trimChars (l : List Char) : List Char :=
  ((l.dropWhile isJsSpace).reverse.dropWhile isJsSpace).reverse

/-- JS `String.trim`. -/
def jsTrim (s : String) : String := (trimChars s.toList).asString

/-- Per-request streaming state of `sendMessage` (spec: `StreamSession`),
plus the message list it mutates.  `usageFetches` counts calls of
`fetchUsageInfo`; `terminal` records that one of the `return` statements
inside the read loop was executed. -/
structure Session where
  messages : List Message
  currentBotText : String
  receivedValidResponse : Bool
  loading : Bool
  usageFetches : Nat
  terminal : Bool
deriving DecidableEq, Repr

/-- The repeated `setMessages` updater of lines 367-377 / 388-398 / 407-417
/ 428-438 / 449-459: copy the list and, if the last message's sender is
`"bot"`, overwrite its text with `t`; otherwise leave the list unchanged.
(The code indexes `updated[updated.length - 1]`; the list is nonempty
whenever this runs because session start appended two messages, so the
`none` case is vacuous and modelled as the identity.) -/
def updateLastBot (msgs : List Message) (t : String) : List Message :=
  match msgs.getLast? with
  | some m => if m.sender = Sender.bot then msgs.dropLast ++ [{ m with text := t }] else msgs
  | none => msgs

/-- Processing of one nonempty trimmed frame payload `dataStr`: the body of
the `for (const line of lines)` loop from line 353 to line 461, after the
prefix/empty filtering.  Follows the source order exactly: the `[DONE]`
sentinel check, then `JSON.parse` in a `try` (`parse dataStr = some data`),
with the `data.error` check (early return), the `data.full_text` update
(no return), and the marker test on `data.content` (early return); on parse
failure (`parse dataStr = none`) the `catch` block runs the raw marker test
(early return) and otherwise the legacy plain-text update. -/
def stepFrame (parse : String → Option JsonObj) (s : Session) (dataStr : String) : Session :=
  if dataStr = "[DONE]" then
    { s with loading := false,
             usageFetches := s.usageFetches + (if s.receivedValidResponse then 1 else 0),
             terminal := true }
  else
    match parse dataStr with
    | some data =>
      if truthy data.error then
        { s with messages := updateLastBot s.messages (data.error.getD ""),
                 loading := false,
                 usageFetches := s.usageFetches + 1,
                 terminal := true }
      else
        let s1 :=
          if truthy data.full_text then
            { s with receivedValidResponse := true,
                     currentBotText := data.full_text.getD "",
                     messages := updateLastBot s.messages (data.full_text.getD "") }
          else s
        if contentMarker data then
          { s1 with messages := updateLastBot s1.messages (data.content.getD ""),
                    loading := false,
                    usageFetches := s1.usageFetches + 1,
                    terminal := true }
        else s1
    | none =>
      if hasMarker dataStr then
        { s with messages := updateLastBot s.messages dataStr,
                 loading := false,
                 usageFetches := s.usageFetches + 1,
                 terminal := true }
      else if dataStr ≠ "" ∧ dataStr ≠ "[DONE]" then
        { s with receivedValidResponse := true,
                 currentBotText := dataStr,
                 messages := updateLastBot s.messages dataStr }
      else s

/-- Lines 465-468: the stream closed naturally (`done` from the reader),
so clear the loading flag and refresh usage information if at least one
valid text frame was received. -/
def finishStream (s : Session) : Session :=
  { s with loading := false,
           usageFetches := s.usageFetches + (if s.receivedValidResponse then 1 else 0) }

/-- Drive the read loop over a list of frame payloads: each `return`
inside the loop (modelled by `terminal`) abandons the rest of the stream;
reaching the end of the input applies the natural-close epilogue. -/
def runFrames (parse : String → Option JsonObj) (s : Session) : List String → Session
  | [] => finishStream s
  | d :: ds =>
    let s1 := stepFrame parse s d
    if s1.terminal then s1 else runFrames parse s1 ds

/-- Session start, lines 282-300: append the user's message and then the
single empty bot placeholder, reset `currentBotTextRef`, set the loading
flag.  (The UI-only updates `setInput`, `setSelectedTemplate`,
`setTemplateInputs` are not part of the message/stream state.) -/
def startSession (msgs : List Message) (userMessage : String) : Session :=
  { messages := msgs ++ [{ text := userMessage, sender := Sender.user },
                         { text := "", sender := Sender.bot }],
    currentBotText := "",
    receivedValidResponse := false,
    loading := true,
    usageFetches := 0,
    terminal := false }

/-- The `catch` handler, lines 469-489: clear loading, write the error
message into the bot placeholder if it is still empty, else append a new
`"system"` message; then refresh usage information unconditionally. -/
def catchStep (s : Session) (errorMessage : String) : Session :=
  let msgs :=
    match s.messages.getLast? with
    | some m =>
      if m.sender = Sender.bot ∧ m.text = "" then
        s.messages.dropLast ++ [{ m with text := errorMessage }]
      else
        s.messages ++ [{ text := errorMessage, sender := Sender.system }]
    | none => s.messages ++ [{ text := errorMessage, sender := Sender.system }]
  { s with messages := msgs,
           loading := false,
           usageFetches := s.usageFetches + 1,
           terminal := true }

/-- Lines 313-329: the error message derived from a non-ok HTTP status.
`detail` models `errorData.detail` of a successfully parsed JSON error
body (`none` when the body is absent or fails to parse, which the inner
`catch` maps to the same default). -/
def httpErrorMessage (status : Nat) (detail : Option String) : String :=
  if status = 429 then
    match detail with
    | some d => if d = "" then "Daily limit reached. Please try again tomorrow." else d
    | none => "Daily limit reached. Please try again tomorrow."
  else if status = 500 then "Server error. Please try again later."
  else if status = 401 then "Subscription required. Please check your membership status."
  else "Something went wrong. Try again."

/-- Line 270: `const messageToSend = customMessage || input` (JS `||`, so an
empty-string `customMessage` also falls back to `input`). -/
def messageToSend (customMessage : Option String) (input : String) : String :=
  match customMessage with
  | some c => if c = "" then input else c
  | none => input

/-- The `fetch` outcome observed by `sendMessage`: a non-ok status (whose
streaming body, if any, is never read) or an ok streamed body given as the
ordered list of decoded chunks. -/
inductive HttpResponse where
  | fail (status : Nat) (detail : Option String) (chunks : List String)
  | ok (chunks : List String)
deriving DecidableEq

/-- Observable outcome of one `sendMessage` call: the final message list,
whether the network request was issued at all, and the final loading flag
and usage-refresh count (both `false`/`0` at entry, since the send
affordance is disabled while a session is loading). -/
structure SendResult where
  messages : List Message
  requestSent : Bool
  loading : Bool
  usageFetches : Nat
deriving DecidableEq, Repr

/-- Buffer splitting of lines 344-346: `buffer.split("\n")` followed by
`buffer = lines.pop() || ""`.  Returns the complete (newline-terminated)
segments in order, and the trailing segment that becomes the new carry. -/
def splitCarry : List Char → List (List Char) × List Char
  | [] => ([], [])
  | c :: cs =>
    if c = '\n' then ([] :: (splitCarry cs).1, (splitCarry cs).2)
    else
      match (splitCarry cs).1, (splitCarry cs).2 with
      | [], rest => ([], c :: rest)
      | l :: ls, rest => ((c :: l) :: ls, rest)

/-- One iteration of the read loop's buffering, lines 344-346: append the
chunk to the carry buffer, split on newlines, keep the trailing segment as
the new buffer and hand the complete lines on. -/
def tokStep (buffer chunk : List Char) : List Char × List (List Char) :=
  ((splitCarry (buffer ++ chunk)).2, (splitCarry (buffer ++ chunk)).1)

/-- The whole read loop's buffering over a chunk sequence, threading the
carry buffer; returns the final (discarded) buffer and all complete lines
in emission order. -/
def tokRun (buffer : List Char) : List (List Char) → List Char × List (List Char)
  | [] => (buffer, [])
  | c :: cs =>
    let p1 := tokStep buffer c
    let p2 := tokRun p1.1 cs
    (p2.1, p1.2 ++ p2.2)

/-- Line filtering of lines 349-351: only lines starting with the exact
header `"data: "` are kept; the header is stripped (the anchored
`line.replace` removes its 6 characters), the rest is trimmed, and an
empty result emits no frame. -/
def frameOfLine (l : List Char) : Option String :=
  if isPrefixB ("data: ".toList) l then
    let d := trimChars (l.drop 6)
    if d.isEmpty then none else some d.asString
  else none

/-- The complete tokenizer: run the chunk loop from an empty buffer
(discarding whatever remains in the buffer at stream end, lines 340-346)
and keep the payloads of the `"data: "` lines. -/
def tokenizeChunks (chunks : List (List Char)) : List String :=
  ((tokRun [] chunks).2).filterMap frameOfLine

/-- The full-snapshot text a pure text frame carries: the `full_text` field
for a JSON frame, the raw payload for a legacy frame. -/
def textOf (parse : String → Option JsonObj) (d : String) : String :=
  match parse d with
  | some o => o.full_text.getD ""
  | none => d

/-- Classification test for the two non-terminal text-update paths (spec:
`TextPayload` and `LegacyTextPayload`): a JSON payload with falsy `error`,
non-marker `content` and truthy `full_text`, or a non-JSON payload that is
nonempty and matches no marker. -/
def isTextFrame (parse : String → Option JsonObj) (d : String) : Bool :=
  decide (d ≠ "[DONE]") &&
    match parse d with
    | some o => !truthy o.error && !contentMarker o && truthy o.full_text
    | none => !hasMarker d && !d.isEmpty

/-- The whole `sendMessage` call, lines 269-490: the input-validation
guards, session start, the request, and either the non-ok error path
(which throws into the `catch` handler before any stream read) or the
tokenizer/classifier/reducer loop over the streamed chunks. -/
def sendMessage (parse : String → Option JsonObj) (msgs : List Message)
    (input userId : String) (customMessage : Option String)
    (resp : HttpResponse) : SendResult :=
  let m := messageToSend customMessage input
  if jsTrim m = "" then
    { messages := msgs, requestSent := false, loading := false, usageFetches := 0 }
  else if jsTrim userId = "" then
    { messages := msgs ++ [{ text := "Please enter your User ID first", sender := Sender.system }],
      requestSent := false, loading := false, usageFetches := 0 }
  else
    match resp with
    | HttpResponse.fail status detail _ =>
      let s := catchStep (startSession msgs m) (httpErrorMessage status detail)
      { messages := s.messages, requestSent := true,
        loading := s.loading, usageFetches := s.usageFetches }
    | HttpResponse.ok chunks =>
      let s := runFrames parse (startSession msgs m) (tokenizeChunks (chunks.map String.toList))
      { messages := s.messages, requestSent := true,
        loading := s.loading, usageFetches := s.usageFetches }

/-! ## Tokenizer lemmas -/

theorem splitCarry_snd_no_nl (l : List Char) : '\n' ∉ (splitCarry l).2 := by
  induction l with
  | nil => simp [splitCarry]
  | cons c cs ih =>
    by_cases hc : c = '\n'
    · simpa [splitCarry, hc] using ih
    · cases h1 : (splitCarry cs).1 with
      | nil =>
        simp only [splitCarry, hc, if_false, h1]
        simp only [List.mem_cons, not_or]
        exact ⟨fun h => hc h.symm, ih⟩
      | cons a as =>
        simpa [splitCarry, hc, h1] using ih

theorem splitCarry_of_no_nl (l : List Char) (h : '\n' ∉ l) : splitCarry l = ([], l) := by
  induction l with
  | nil => rfl
  | cons c cs ih =>
    have hc : c ≠ '\n' := fun hcc => h (hcc ▸ List.mem_cons_self c cs)
    have hcs : '\n' ∉ cs := fun hm => h (List.mem_cons_of_mem c hm)
    have hrec := ih hcs
    simp only [splitCarry, fun hcc => hc hcc, if_false, hrec]

theorem splitCarry_append (xs ys : List Char) :
    splitCarry (xs ++ ys) =
      ((splitCarry xs).1 ++ (splitCarry ((splitCarry xs).2 ++ ys)).1,
       (splitCarry ((splitCarry xs).2 ++ ys)).2) := by
  induction xs with
  | nil => simp [splitCarry]
  | cons c cs ih =>
    by_cases hc : c = '\n'
    · simp only [List.cons_append, splitCarry, hc, if_true]
      simp [ih]
    · cases hA : (splitCarry cs).1 with
      | nil =>
        simp only [List.cons_append, splitCarry, hc, if_false, List.append_eq]
        rw [ih]
        simp only [hA, List.nil_append]
        cases hB : (splitCarry ((splitCarry cs).2 ++ ys)).1 with
        | nil => simp [splitCarry, hc, hB]
        | cons b bs => simp [splitCarry, hc, hB]
      | cons a as =>
        simp only [List.cons_append, splitCarry, hc, if_false, List.append_eq]
        rw [ih]
        simp [hA]

theorem tokRun_eq (cs : List (List Char)) :
    ∀ b : List Char, '\n' ∉ b →
      tokRun b cs = ((splitCarry (b ++ cs.flatten)).2, (splitCarry (b ++ cs.flatten)).1) := by
  induction cs with
  | nil =>
    intro b hb
    simp [tokRun, splitCarry_of_no_nl b hb]
  | cons c cs ih =>
    intro b _
    simp only [tokRun, tokStep]
    rw [ih _ (splitCarry_snd_no_nl (b ++ c))]
    rw [List.flatten_cons, ← List.append_assoc, splitCarry_append (b ++ c) cs.flatten]

theorem tokenizeChunks_eq (cs : List (List Char)) :
    tokenizeChunks cs = ((splitCarry cs.flatten).1).filterMap frameOfLine := by
  unfold tokenizeChunks
  rw [tokRun_eq cs [] (by simp)]
  simp

/-! ## Reducer lemmas -/

theorem updateLastBot_concat (l : List Message) (a : Message) (t : String) :
    updateLastBot (l ++ [a]) t
      = l ++ [if a.sender = Sender.bot then { a with text := t } else a] := by
  by_cases hb : a.sender = Sender.bot
  · simp [updateLastBot, List.getLast?_concat, List.dropLast_concat, hb]
  · simp [updateLastBot, List.getLast?_concat, hb]

theorem updateLastBot_overwrite (msgs : List Message) (a b : String) :
    updateLastBot (updateLastBot msgs a) b = updateLastBot msgs b := by
  induction msgs using List.reverseRecOn with
  | nil => rfl
  | append_singleton l m _ =>
    by_cases hb : m.sender = Sender.bot
    · simp [updateLastBot_concat, hb]
    · simp [updateLastBot_concat, hb]

theorem updateLastBot_map_sender (msgs : List Message) (t : String) :
    (updateLastBot msgs t).map Message.sender = msgs.map Message.sender := by
  induction msgs using List.reverseRecOn with
  | nil => rfl
  | append_singleton l m _ =>
    by_cases hb : m.sender = Sender.bot
    · simp [updateLastBot_concat, hb]
    · simp [updateLastBot_concat, hb]

theorem updateLastBot_dropLast (msgs : List Message) (t : String) :
    (updateLastBot msgs t).dropLast = msgs.dropLast := by
  induction msgs using List.reverseRecOn with
  | nil => rfl
  | append_singleton l m _ =>
    by_cases hb : m.sender = Sender.bot
    · simp [updateLastBot_concat, hb, List.dropLast_concat]
    · simp [updateLastBot_concat, hb]

theorem updateLastBot_cases (msgs : List Message) (t : String) :
    updateLastBot msgs t = msgs ∨
      ∃ m, msgs.getLast? = some m ∧ m.sender = Sender.bot ∧
        updateLastBot msgs t = msgs.dropLast ++ [{ m with text := t }] := by
  cases hm : msgs.getLast? with
  | none => left; simp [updateLastBot, hm]
  | some m =>
    by_cases hb : m.sender = Sender.bot
    · right; exact ⟨m, rfl, hb, by simp [updateLastBot, hm, hb]⟩
    · left; simp [updateLastBot, hm, hb]

theorem updateLastBot_not_bot (msgs : List Message) (t : String) (m : Message)
    (hm : msgs.getLast? = some m) (hb : m.sender ≠ Sender.bot) :
    updateLastBot msgs t = msgs := by
  simp [updateLastBot, hm, hb]

theorem getLast?_pair {α : Type} (l : List α) (a b : α) :
    (l ++ [a, b]).getLast? = some b := by
  rw [show l ++ [a, b] = (l ++ [a]) ++ [b] by simp, List.getLast?_concat]

theorem dropLast_pair {α : Type} (l : List α) (a b : α) :
    (l ++ [a, b]).dropLast = l ++ [a] := by
  rw [show l ++ [a, b] = (l ++ [a]) ++ [b] by simp, List.dropLast_concat]

/-! ## Branch lemmas for `stepFrame` -/

theorem stepFrame_done (parse : String → Option JsonObj) (s : Session) :
    stepFrame parse s "[DONE]"
      = { s with loading := false,
                 usageFetches := s.usageFetches + (if s.receivedValidResponse then 1 else 0),
                 terminal := true } := by
  simp [stepFrame]

theorem stepFrame_error (parse : String → Option JsonObj) (s : Session) (d : String)
    (o : JsonObj) (hp : parse d = some o) (hd : d ≠ "[DONE]") (he : truthy o.error = true) :
    stepFrame parse s d
      = { s with messages := updateLastBot s.messages (o.error.getD ""),
                 loading := false,
                 usageFetches := s.usageFetches + 1,
                 terminal := true } := by
  simp [stepFrame, hd, hp, he]

theorem stepFrame_marker_content (parse : String → Option JsonObj) (s : Session) (d : String)
    (o : JsonObj) (hp : parse d = some o) (hd : d ≠ "[DONE]")
    (he : truthy o.error = false) (hc : contentMarker o = true) :
    (stepFrame parse s d).messages = updateLastBot s.messages (o.content.getD "") ∧
    (stepFrame parse s d).loading = false ∧
    (stepFrame parse s d).usageFetches = s.usageFetches + 1 ∧
    (stepFrame parse s d).terminal = true := by
  cases hf : truthy o.full_text
  · simp [stepFrame, hd, hp, he, hc, hf]
  · simp [stepFrame, hd, hp, he, hc, hf, updateLastBot_overwrite]

theorem stepFrame_text (parse : String → Option JsonObj) (s : Session) (d : String)
    (o : JsonObj) (hp : parse d = some o) (hd : d ≠ "[DONE]")
    (he : truthy o.error = false) (hc : contentMarker o = false)
    (hf : truthy o.full_text = true) :
    stepFrame parse s d
      = { s with receivedValidResponse := true,
                 currentBotText := o.full_text.getD "",
                 messages := updateLastBot s.messages (o.full_text.getD "") } := by
  simp [stepFrame, hd, hp, he, hc, hf]

theorem stepFrame_unrecognized (parse : String → Option JsonObj) (s : Session) (d : String)
    (o : JsonObj) (hp : parse d = some o) (hd : d ≠ "[DONE]")
    (he : truthy o.error = false) (hc : contentMarker o = false)
    (hf : truthy o.full_text = false) :
    stepFrame parse s d = s := by
  simp [stepFrame, hd, hp, he, hc, hf]

theorem stepFrame_legacy_marker (parse : String → Option JsonObj) (s : Session) (d : String)
    (hp : parse d = none) (hd : d ≠ "[DONE]") (hm : hasMarker d = true) :
    stepFrame parse s d
      = { s with messages := updateLastBot s.messages d,
                 loading := false,
                 usageFetches := s.usageFetches + 1,
                 terminal := true } := by
  simp [stepFrame, hd, hp, hm]

theorem stepFrame_legacy_text (parse : String → Option JsonObj) (s : Session) (d : String)
    (hp : parse d = none) (hd : d ≠ "[DONE]") (hm : hasMarker d = false) (hne : d ≠ "") :
    stepFrame parse s d
      = { s with receivedValidResponse := true,
                 currentBotText := d,
                 messages := updateLastBot s.messages d } := by
  simp [stepFrame, hd, hp, hm, hne]

/-! ## Shape of one reducer step -/

theorem stepFrame_messages_shape (parse : String → Option JsonObj) (s : Session) (d : String) :
    (stepFrame parse s d).messages = s.messages ∨
      ∃ t, (stepFrame parse s d).messages = updateLastBot s.messages t := by
  by_cases hd : d = "[DONE]"
  · left; rw [hd, stepFrame_done]
  · cases hp : parse d with
    | some o =>
      cases he : truthy o.error with
      | true => right; exact ⟨o.error.getD "", by rw [stepFrame_error parse s d o hp hd he]⟩
      | false =>
        cases hc : contentMarker o with
        | true =>
          right
          exact ⟨o.content.getD "", (stepFrame_marker_content parse s d o hp hd he hc).1⟩
        | false =>
          cases hf : truthy o.full_text with
          | true =>
            right
            exact ⟨o.full_text.getD "", by rw [stepFrame_text parse s d o hp hd he hc hf]⟩
          | false => left; rw [stepFrame_unrecognized parse s d o hp hd he hc hf]
    | none =>
      cases hm : hasMarker d with
      | true => right; exact ⟨d, by rw [stepFrame_legacy_marker parse s d hp hd hm]⟩
      | false =>
        by_cases hne : d = ""
        · left; subst hne; simp [stepFrame, hd, hp, hm]
        · right; exact ⟨d, by rw [stepFrame_legacy_text parse s d hp hd hm hne]⟩

theorem stepFrame_map_sender (parse : String → Option JsonObj) (s : Session) (d : String) :
    (stepFrame parse s d).messages.map Message.sender = s.messages.map Message.sender := by
  rcases stepFrame_messages_shape parse s d with h | ⟨t, h⟩
  · rw [h]
  · rw [h, updateLastBot_map_sender]

theorem stepFrame_dropLast (parse : String → Option JsonObj) (s : Session) (d : String) :
    (stepFrame parse s d).messages.dropLast = s.messages.dropLast := by
  rcases stepFrame_messages_shape parse s d with h | ⟨t, h⟩
  · rw [h]
  · rw [h, updateLastBot_dropLast]

theorem runFrames_map_sender (parse : String → Option JsonObj) (fs : List String) :
    ∀ s : Session,
      (runFrames parse s fs).messages.map Message.sender = s.messages.map Message.sender := by
  induction fs with
  | nil => intro s; rfl
  | cons d ds ih =>
    intro s
    cases ht : (stepFrame parse s d).terminal
    · rw [show runFrames parse s (d :: ds) = runFrames parse (stepFrame parse s d) ds by
        simp [runFrames, ht]]
      rw [ih, stepFrame_map_sender]
    · rw [show runFrames parse s (d :: ds) = stepFrame parse s d by simp [runFrames, ht]]
      rw [stepFrame_map_sender]

theorem runFrames_dropLast (parse : String → Option JsonObj) (fs : List String) :
    ∀ s : Session,
      (runFrames parse s fs).messages.dropLast = s.messages.dropLast := by
  induction fs with
  | nil => intro s; rfl
  | cons d ds ih =>
    intro s
    cases ht : (stepFrame parse s d).terminal
    · rw [show runFrames parse s (d :: ds) = runFrames parse (stepFrame parse s d) ds by
        simp [runFrames, ht]]
      rw [ih, stepFrame_dropLast]
    · rw [show runFrames parse s (d :: ds) = stepFrame parse s d by simp [runFrames, ht]]
      rw [stepFrame_dropLast]

/-! ## Usage-refresh accounting -/

theorem stepFrame_fetch_cases (parse : String → Option JsonObj) (s : Session) (d : String) :
    ((stepFrame parse s d).terminal = s.terminal ∧
     (stepFrame parse s d).usageFetches = s.usageFetches ∧
     (s.receivedValidResponse = true → (stepFrame parse s d).receivedValidResponse = true)) ∨
    ((stepFrame parse s d).terminal = true ∧
     (stepFrame parse s d).usageFetches = s.usageFetches + 1) ∨
    ((stepFrame parse s d).terminal = true ∧
     (stepFrame parse s d).usageFetches
        = s.usageFetches + (if s.receivedValidResponse then 1 else 0) ∧
     (stepFrame parse s d).receivedValidResponse = s.receivedValidResponse) := by
  by_cases hd : d = "[DONE]"
  · right; right; rw [hd, stepFrame_done]; exact ⟨rfl, rfl, rfl⟩
  · cases hp : parse d with
    | some o =>
      cases he : truthy o.error with
      | true =>
        right; left
        rw [stepFrame_error parse s d o hp hd he]
        exact ⟨rfl, rfl⟩
      | false =>
        cases hc : contentMarker o with
        | true =>
          right; left
          have h := stepFrame_marker_content parse s d o hp hd he hc
          exact ⟨h.2.2.2, h.2.2.1⟩
        | false =>
          cases hf : truthy o.full_text with
          | true =>
            left
            rw [stepFrame_text parse s d o hp hd he hc hf]
            exact ⟨rfl, rfl, fun _ => rfl⟩
          | false =>
            left
            rw [stepFrame_unrecognized parse s d o hp hd he hc hf]
            exact ⟨rfl, rfl, fun h => h⟩
    | none =>
      cases hm : hasMarker d with
      | true =>
        right; left
        rw [stepFrame_legacy_marker parse s d hp hd hm]
        exact ⟨rfl, rfl⟩
      | false =>
        by_cases hne : d = ""
        · left
          subst hne
          simp only [stepFrame, hd, hp, hm]
          simp
        · left
          rw [stepFrame_legacy_text parse s d hp hd hm hne]
          exact ⟨rfl, rfl, fun _ => rfl⟩

theorem runFrames_fetch (parse : String → Option JsonObj) (fs : List String) :
    ∀ s : Session, s.usageFetches = 0 → s.terminal = false →
      (runFrames parse s fs).usageFetches ≤ 1 ∧
      ((runFrames parse s fs).receivedValidResponse = true →
        (runFrames parse s fs).usageFetches = 1) := by
  induction fs with
  | nil =>
    intro s h0 _
    constructor
    · show (finishStream s).usageFetches ≤ 1
      simp [finishStream, h0]
      split
      · exact le_refl 1
      · exact Nat.zero_le 1
    · intro hr
      have hr' : s.receivedValidResponse = true := hr
      show (finishStream s).usageFetches = 1
      simp [finishStream, h0, hr']
  | cons d ds ih =>
    intro s h0 ht
    rcases stepFrame_fetch_cases parse s d with ⟨hT, hF, _⟩ | ⟨hT, hF⟩ | ⟨hT, hF, hR⟩
    · have hT' : (stepFrame parse s d).terminal = false := hT.trans ht
      rw [show runFrames parse s (d :: ds) = runFrames parse (stepFrame parse s d) ds by
        simp [runFrames, hT']]
      exact ih _ (hF.trans h0) hT'
    · rw [show runFrames parse s (d :: ds) = stepFrame parse s d by simp [runFrames, hT]]
      rw [hF, h0]
      exact ⟨le_refl 1, fun _ => rfl⟩
    · rw [show runFrames parse s (d :: ds) = stepFrame parse s d by simp [runFrames, hT]]
      rw [hF, h0, hR]
      constructor
      · split
        · exact le_refl 1
        · exact Nat.zero_le 1
      · intro hr
        simp [hr]

/-! ## Claim theorems -/

/-- C1: for a frame whose trimmed payload parses as a JSON object, the
checks apply in priority order Done, `error`, marker `content`,
`full_text`; in particular a payload with both a marker-matching
`content` and a non-empty `full_text` produces the ErrorPayload outcome
(trailing bot text set to the content, session terminal), not the
TextPayload outcome. -/
theorem classifier_priority_order (parse : String → Option JsonObj) (s : Session)
    (d : String) (o : JsonObj) (hp : parse d = some o) (hd : d ≠ "[DONE]") :
    stepFrame parse s "[DONE]"
      = { s with loading := false,
                 usageFetches := s.usageFetches + (if s.receivedValidResponse then 1 else 0),
                 terminal := true } ∧
    (truthy o.error = true →
      stepFrame parse s d
        = { s with messages := updateLastBot s.messages (o.error.getD ""),
                   loading := false, usageFetches := s.usageFetches + 1, terminal := true }) ∧
    (truthy o.error = false → contentMarker o = true →
      (stepFrame parse s d).messages = updateLastBot s.messages (o.content.getD "") ∧
      (stepFrame parse s d).terminal = true) ∧
    (truthy o.error = false → contentMarker o = false → truthy o.full_text = true →
      stepFrame parse s d
        = { s with receivedValidResponse := true,
                   currentBotText := o.full_text.getD "",
                   messages := updateLastBot s.messages (o.full_text.getD "") }) := by
  refine ⟨stepFrame_done parse s, fun he => stepFrame_error parse s d o hp hd he,
    fun he hc => ⟨(stepFrame_marker_content parse s d o hp hd he hc).1,
                  (stepFrame_marker_content parse s d o hp hd he hc).2.2.2⟩,
    fun he hc hf => stepFrame_text parse s d o hp hd he hc hf⟩

/-- C1 witness: a payload carrying both a marker-matching `content` and a
non-empty `full_text` ends with the content text and a terminal session. -/
theorem classifier_priority_order_witness :
    (stepFrame
        (fun _ => some { error := none, full_text := some "Hi there",
                         content := some "Daily limit reached" })
        (startSession [] "q") "p").messages
      = updateLastBot (startSession [] "q").messages "Daily limit reached" ∧
    (stepFrame
        (fun _ => some { error := none, full_text := some "Hi there",
                         content := some "Daily limit reached" })
        (startSession [] "q") "p").terminal = true :=
  (classifier_priority_order
      (fun _ => some { error := none, full_text := some "Hi there",
                       content := some "Daily limit reached" })
      (startSession [] "q") "p"
      { error := none, full_text := some "Hi there", content := some "Daily limit reached" }
      rfl (by decide)).2.2.1 rfl (by decide)

/-- C2 counterexample: a session terminated by an error frame with no valid
text frame received still invokes the usage refresh (the claim says it must
not be invoked in that case). -/
theorem usage_refresh_iff_counterexample :
    (runFrames
        (fun _ => some { error := some "limit", full_text := none, content := none })
        (startSession [] "hi") ["e2"]).receivedValidResponse = false ∧
    (runFrames
        (fun _ => some { error := some "limit", full_text := none, content := none })
        (startSession [] "hi") ["e2"]).usageFetches = 1 := by
  constructor
  · decide
  · decide

/-- C2 amended: per terminal stream outcome the usage refresh is invoked at
most once, and exactly once whenever at least one valid text frame was
received; (it may additionally run once on error-frame terminals even
without a valid text frame, as the counterexample shows). -/
theorem usage_refresh_at_most_once (parse : String → Option JsonObj) (msgs : List Message)
    (u : String) (fs : List String) :
    (runFrames parse (startSession msgs u) fs).usageFetches ≤ 1 ∧
    ((runFrames parse (startSession msgs u) fs).receivedValidResponse = true →
      (runFrames parse (startSession msgs u) fs).usageFetches = 1) :=
  runFrames_fetch parse fs (startSession msgs u) rfl rfl

/-- C2 witness: a session with one valid text frame and natural close
refreshes usage exactly once. -/
theorem usage_refresh_at_most_once_witness :
    (runFrames
        (fun x => if x = "t" then some { error := none, full_text := some "Hi", content := none }
                  else none)
        (startSession [] "q") ["t"]).usageFetches = 1 :=
  (usage_refresh_at_most_once
      (fun x => if x = "t" then some { error := none, full_text := some "Hi", content := none }
                else none)
      [] "q" ["t"]).2 (by decide)

/-- C3: the tokenizer is split-invariant: any two chunkings of the same
logical character stream emit the same sequence of frames. -/
theorem tokenizer_split_invariant (cs ds : List (List Char)) (h : cs.flatten = ds.flatten) :
    tokenizeChunks cs = tokenizeChunks ds := by
  rw [tokenizeChunks_eq, tokenizeChunks_eq, h]

/-- C3 witness: two different chunkings of the same stream, one splitting a
frame mid-line, emit the same frames. -/
theorem tokenizer_split_invariant_witness :
    tokenizeChunks ["da".toList, "ta: hello\ndata: x\n".toList]
      = tokenizeChunks ["data: hello\nda".toList, "ta: x\n".toList] :=
  tokenizer_split_invariant ["da".toList, "ta: hello\ndata: x\n".toList]
    ["data: hello\nda".toList, "ta: x\n".toList] (by decide)

/-- C4: applying the same text frame (TextPayload or LegacyTextPayload)
twice yields exactly the state of applying it once; the update is a
full-snapshot overwrite of the trailing bot message, never concatenation. -/
theorem text_frame_idempotent (parse : String → Option JsonObj) (s : Session) (d : String)
    (h : isTextFrame parse d = true) :
    stepFrame parse (stepFrame parse s d) d = stepFrame parse s d ∧
    (stepFrame parse s d).messages = updateLastBot s.messages (textOf parse d) := by
  have hd : d ≠ "[DONE]" := by
    intro hdd
    rw [isTextFrame, hdd] at h
    simp at h
  cases hp : parse d with
  | some o =>
    rw [isTextFrame, hp] at h
    simp only [Bool.and_eq_true, Bool.not_eq_true', decide_eq_true_eq] at h
    obtain ⟨-, ⟨he, hc⟩, hf⟩ := h
    have h1 := stepFrame_text parse s d o hp hd he hc hf
    constructor
    · rw [h1, stepFrame_text parse _ d o hp hd he hc hf]
      simp [updateLastBot_overwrite]
    · rw [h1]
      simp [textOf, hp]
  | none =>
    rw [isTextFrame, hp] at h
    simp only [Bool.and_eq_true, Bool.not_eq_true', decide_eq_true_eq] at h
    obtain ⟨-, hm, hemp⟩ := h
    have hne : d ≠ "" := by
      intro hdd
      rw [hdd] at hemp
      exact absurd hemp (by decide)
    have h1 := stepFrame_legacy_text parse s d hp hd hm hne
    constructor
    · rw [h1, stepFrame_legacy_text parse _ d hp hd hm hne]
      simp [updateLastBot_overwrite]
    · rw [h1]
      simp [textOf, hp]

/-- C4 witness: a legacy plain-text frame applied twice equals applying it
once. -/
theorem text_frame_idempotent_witness :
    isTextFrame (fun _ => none) "plain text reply" = true ∧
    stepFrame (fun _ => none)
        (stepFrame (fun _ => none) (startSession [] "q") "plain text reply")
        "plain text reply"
      = stepFrame (fun _ => none) (startSession [] "q") "plain text reply" :=
  ⟨by decide,
   (text_frame_idempotent (fun _ => none) (startSession [] "q") "plain text reply"
      (by decide)).1⟩

/-- C5: exactly one empty bot placeholder is appended at session start, and
throughout the whole run every frame only rewrites the trailing message's
text: the sender sequence stays the original senders followed by one user
and one bot entry, and everything before the placeholder is untouched, so
no second bot placeholder is ever appended. -/
theorem single_bot_placeholder (parse : String → Option JsonObj) (msgs : List Message)
    (u : String) (fs : List String) :
    (startSession msgs u).messages
      = msgs ++ [{ text := u, sender := Sender.user }, { text := "", sender := Sender.bot }] ∧
    (runFrames parse (startSession msgs u) fs).messages.map Message.sender
      = msgs.map Message.sender ++ [Sender.user, Sender.bot] ∧
    (runFrames parse (startSession msgs u) fs).messages.dropLast
      = msgs ++ [{ text := u, sender := Sender.user }] := by
  refine ⟨rfl, ?_, ?_⟩
  · rw [runFrames_map_sender]
    simp [startSession]
  · rw [runFrames_dropLast]
    simp [startSession, dropLast_pair]

/-- C6 counterexample: an error frame arriving when the trailing message is
not a bot placeholder leaves the message list unchanged; no system message
carrying the error is appended, contrary to the claim. -/
theorem error_frame_no_system_append :
    (stepFrame (fun _ => some { error := some "limit hit", full_text := none, content := none })
        { messages := [{ text := "hi", sender := Sender.user }], currentBotText := "",
          receivedValidResponse := false, loading := true, usageFetches := 0, terminal := false }
        "e").messages
      = [{ text := "hi", sender := Sender.user }] := by
  decide

/-- C6 amended: an ErrorPayload frame replaces the trailing message's text
with the error message when that message's sender is bot, and otherwise
leaves the message list unchanged (no system message is appended); in both
cases the session becomes terminal and no further frames of the stream are
processed. -/
theorem error_frame_terminal (parse : String → Option JsonObj) (s : Session) (d : String)
    (o : JsonObj) (fs : List String)
    (hp : parse d = some o) (hd : d ≠ "[DONE]") (he : truthy o.error = true) :
    (stepFrame parse s d).messages = updateLastBot s.messages (o.error.getD "") ∧
    (stepFrame parse s d).terminal = true ∧
    (∀ m, s.messages.getLast? = some m → m.sender ≠ Sender.bot →
      (stepFrame parse s d).messages = s.messages) ∧
    runFrames parse s (d :: fs) = stepFrame parse s d := by
  have h1 := stepFrame_error parse s d o hp hd he
  have ht : (stepFrame parse s d).terminal = true := by rw [h1]
  refine ⟨by rw [h1], ht, ?_, ?_⟩
  · intro m hm hb
    rw [h1]
    exact updateLastBot_not_bot s.messages _ m hm hb
  · simp [runFrames, ht]

/-- C6 amended witness: a lone error frame writes its message into the open
bot placeholder and terminates, ignoring the rest of the stream. -/
theorem error_frame_terminal_witness :
    (stepFrame (fun _ => some { error := some "Daily limit reached", full_text := none, content := none })
        (startSession [] "hi") "e").messages
      = updateLastBot (startSession [] "hi").messages "Daily limit reached" ∧
    runFrames (fun _ => some { error := some "Daily limit reached", full_text := none, content := none })
        (startSession [] "hi") ["e", "later"]
      = stepFrame (fun _ => some { error := some "Daily limit reached", full_text := none, content := none })
          (startSession [] "hi") "e" :=
  ⟨(error_frame_terminal
      (fun _ => some { error := some "Daily limit reached", full_text := none, content := none })
      (startSession [] "hi") "e"
      { error := some "Daily limit reached", full_text := none, content := none }
      ["later"] rfl (by decide) (by decide)).1,
   (error_frame_terminal
      (fun _ => some { error := some "Daily limit reached", full_text := none, content := none })
      (startSession [] "hi") "e"
      { error := some "Daily limit reached", full_text := none, content := none }
      ["later"] rfl (by decide) (by decide)).2.2.2⟩

/-- C7: the tokenizer forwards exactly the complete lines with the exact
header `"data: "` (header stripped, payload trimmed, empty payloads
dropped, everything else silently dropped), and at stream end any carry
left in the buffer — here an extra trailing chunk with no newline — is
discarded and never delivered as a frame. -/
theorem tokenizer_filter_and_discard (cs : List (List Char)) (t l : List Char)
    (h : '\n' ∉ t) :
    tokenizeChunks (cs ++ [t]) = tokenizeChunks cs ∧
    tokenizeChunks cs = ((splitCarry cs.flatten).1).filterMap frameOfLine ∧
    (isPrefixB ("data: ".toList) l = false → frameOfLine l = none) ∧
    (trimChars (l.drop 6) = [] → frameOfLine l = none) ∧
    (isPrefixB ("data: ".toList) l = true → trimChars (l.drop 6) ≠ [] →
      frameOfLine l = some ((trimChars (l.drop 6)).asString)) := by
  refine ⟨?_, tokenizeChunks_eq cs, ?_, ?_, ?_⟩
  · rw [tokenizeChunks_eq, tokenizeChunks_eq]
    have hflat : (cs ++ [t]).flatten = cs.flatten ++ t := by simp
    rw [hflat, splitCarry_append]
    have hnn : '\n' ∉ (splitCarry cs.flatten).2 ++ t := by
      intro hmem
      rcases List.mem_append.mp hmem with h1 | h2
      · exact splitCarry_snd_no_nl _ h1
      · exact h h2
    rw [splitCarry_of_no_nl _ hnn]
    simp
  · intro hpre
    have hpre2 : isPrefixB ['d', 'a', 't', 'a', ':', ' '] l = false := hpre
    simp [frameOfLine, hpre2]
  · intro hemp
    by_cases hpre : isPrefixB ['d', 'a', 't', 'a', ':', ' '] l = true
    · simp [frameOfLine, hpre, hemp]
    · simp [frameOfLine, hpre]
  · intro hpre hne
    have hpre2 : isPrefixB ['d', 'a', 't', 'a', ':', ' '] l = true := hpre
    simp [frameOfLine, hpre2, List.isEmpty_iff, hne]

/-- C7 witness: a trailing newline-free chunk left in the buffer at stream
end is discarded. -/
theorem tokenizer_filter_and_discard_witness :
    tokenizeChunks (["data: x\n".toList] ++ ["data: tail".toList])
      = tokenizeChunks ["data: x\n".toList] :=
  (tokenizer_filter_and_discard ["data: x\n".toList] "data: tail".toList [] (by decide)).1

/-- C8: an HTTP 429 response with JSON detail field set to the string
Quota exceeded terminates the session with the bot placeholder text set to
exactly that string, with the loading flag cleared, and without any stream
read: the outcome is independent of whatever body chunks the failed
response carries. -/
theorem quota_exceeded_429 (parse : String → Option JsonObj) (msgs : List Message)
    (input userId : String) (cm : Option String) (chunks chunks2 : List String)
    (h1 : jsTrim (messageToSend cm input) ≠ "") (h2 : jsTrim userId ≠ "") :
    (sendMessage parse msgs input userId cm
        (HttpResponse.fail 429 (some "Quota exceeded") chunks)).messages
      = msgs ++ [{ text := messageToSend cm input, sender := Sender.user },
                 { text := "Quota exceeded", sender := Sender.bot }] ∧
    (sendMessage parse msgs input userId cm
        (HttpResponse.fail 429 (some "Quota exceeded") chunks)).loading = false ∧
    sendMessage parse msgs input userId cm
        (HttpResponse.fail 429 (some "Quota exceeded") chunks)
      = sendMessage parse msgs input userId cm
          (HttpResponse.fail 429 (some "Quota exceeded") chunks2) := by
  refine ⟨?_, ?_, ?_⟩
  · simp only [sendMessage, h1, h2, if_false]
    simp [catchStep, startSession, httpErrorMessage, getLast?_pair, dropLast_pair]
  · simp only [sendMessage, h1, h2, if_false]
    simp [catchStep]
  · simp only [sendMessage, h1, h2, if_false]

/-- C8 witness. -/
theorem quota_exceeded_429_witness :
    (sendMessage (fun _ => none) [] "hi" "u5" none
        (HttpResponse.fail 429 (some "Quota exceeded") ["junk"])).messages
      = [{ text := "hi", sender := Sender.user },
         { text := "Quota exceeded", sender := Sender.bot }] :=
  (quota_exceeded_429 (fun _ => none) [] "hi" "u5" none ["junk"] [] (by decide) (by decide)).1

/-- C9 counterexample: a send attempt whose user identifier is missing but
whose outgoing text is also empty is rejected silently — no system
validation message is appended (the empty-input guard runs first), contrary
to the claim's universal statement about missing identifiers. -/
theorem missing_user_id_silent :
    sendMessage (fun _ => none) [] "" "" none (HttpResponse.ok [])
      = { messages := [], requestSent := false, loading := false, usageFetches := 0 } := by
  decide

/-- C9 amended: an empty or whitespace-only outgoing text never issues a
request and never mutates the message list at all; a missing (empty or
whitespace-only) user identifier with a non-blank outgoing text never
issues a request and appends exactly one system validation message. -/
theorem validation_guards (parse : String → Option JsonObj) (msgs : List Message)
    (input userId : String) (cm : Option String) (resp : HttpResponse) :
    (jsTrim (messageToSend cm input) = "" →
      sendMessage parse msgs input userId cm resp
        = { messages := msgs, requestSent := false, loading := false, usageFetches := 0 }) ∧
    (jsTrim (messageToSend cm input) ≠ "" → jsTrim userId = "" →
      sendMessage parse msgs input userId cm resp
        = { messages := msgs ++ [{ text := "Please enter your User ID first",
                                   sender := Sender.system }],
            requestSent := false, loading := false, usageFetches := 0 }) := by
  constructor
  · intro h
    simp [sendMessage, h]
  · intro h1 h2
    simp [sendMessage, h1, h2]

/-- C9 amended witness: whitespace-only input is rejected with no mutation;
blank user id with real input appends the validation message. -/
theorem validation_guards_witness :
    sendMessage (fun _ => none) [] " " "u" none (HttpResponse.ok [])
      = { messages := [], requestSent := false, loading := false, usageFetches := 0 } ∧
    sendMessage (fun _ => none) [] "hi" " " none (HttpResponse.ok [])
      = { messages := [{ text := "Please enter your User ID first", sender := Sender.system }],
          requestSent := false, loading := false, usageFetches := 0 } :=
  ⟨(validation_guards (fun _ => none) [] " " "u" none (HttpResponse.ok [])).1 (by decide),
   (validation_guards (fun _ => none) [] "hi" " " none (HttpResponse.ok [])).2
      (by decide) (by decide)⟩

/-- C10: a reducer step mutates at most the text of the last message, and
only when that message's sender is bot — it never appends, removes,
reorders, or changes the sender of any message — while the transport
exception handler alone either fills the still-empty trailing bot
placeholder or appends exactly one new system message. -/
theorem reducer_append_only (parse : String → Option JsonObj) (s : Session) (d e : String) :
    ((stepFrame parse s d).messages = s.messages ∨
      ∃ m t, s.messages.getLast? = some m ∧ m.sender = Sender.bot ∧
        (stepFrame parse s d).messages = s.messages.dropLast ++ [{ m with text := t }]) ∧
    (stepFrame parse s d).messages.map Message.sender = s.messages.map Message.sender ∧
    ((∃ m, s.messages.getLast? = some m ∧ m.sender = Sender.bot ∧ m.text = "" ∧
        (catchStep s e).messages = s.messages.dropLast ++ [{ m with text := e }]) ∨
      (catchStep s e).messages = s.messages ++ [{ text := e, sender := Sender.system }]) := by
  refine ⟨?_, stepFrame_map_sender parse s d, ?_⟩
  · rcases stepFrame_messages_shape parse s d with h | ⟨t, h⟩
    · left; exact h
    · rcases updateLastBot_cases s.messages t with h2 | ⟨m, hm, hb, h2⟩
      · left; rw [h, h2]
      · right; exact ⟨m, t, hm, hb, by rw [h, h2]⟩
  · cases hm : s.messages.getLast? with
    | none => right; simp [catchStep, hm]
    | some m =>
      by_cases hcond : m.sender = Sender.bot ∧ m.text = ""
      · left; exact ⟨m, rfl, hcond.1, hcond.2, by simp [catchStep, hm, hcond]⟩
      · right; simp [catchStep, hm, hcond]
